import Mathlib

/-!
Verification of the pipboy-pi wireframe renderer core
(`src/modules/cpp/math.cpp`, `wireframe.cpp`, `obj_loader.cpp`)
against its natural-language specification.

The C++ code is shallowly embedded: `float`/`double` arithmetic is
modelled by exact real arithmetic (`ℝ`), screen coordinates by `ℤ`,
`unsigned int` by `ℕ` with explicit wraparound modulo `2^32` where the
source can underflow.  Each definition mirrors one source function and
keeps its name.
-/

namespace Pipboy

/-- Screen-space integer point (`Point2DInt` in `math.hpp`). -/
structure Point2DInt where
  x : ℤ
  y : ℤ
deriving DecidableEq, Repr

/-- 2D segment as four integers (`Line2D` in `math.hpp`). -/
structure Line2D where
  x1 : ℤ
  y1 : ℤ
  x2 : ℤ
  y2 : ℤ
deriving DecidableEq, Repr

/-- Triangular face of three vertex indices (`Face` in `math.hpp`,
`unsigned int` fields modelled as `ℕ`). -/
structure Face where
  v1 : ℕ
  v2 : ℕ
  v3 : ℕ
deriving DecidableEq, Repr

/-- `dist2` in `math.cpp`: squared euclidean distance of two integer
points, `dx*dx + dy*dy`. -/
def dist2 (x1 y1 x2 y2 : ℤ) : ℤ :=
  (x1 - x2) * (x1 - x2) + (y1 - y2) * (y1 - y2)

/-- `lines_equal` in `math.cpp`: two segments are near-equal when both
endpoint pairs are within `eps2` squared distance, in direct or in
swapped orientation. -/
def lines_equal (l1 l2 : Line2D) (eps2 : ℤ) : Bool :=
  decide ((dist2 l1.x1 l1.y1 l2.x1 l2.y1 ≤ eps2 ∧ dist2 l1.x2 l1.y2 l2.x2 l2.y2 ≤ eps2) ∨
          (dist2 l1.x1 l1.y1 l2.x2 l2.y2 ≤ eps2 ∧ dist2 l1.x2 l1.y2 l2.x1 l2.y1 ≤ eps2))

/-- The directed segment from `a` to `b`, as built at the top of
`WireframeRenderer::add_line`. -/
def lineOf (a b : Point2DInt) : Line2D :=
  ⟨a.x, a.y, b.x, b.y⟩

/-- Endpoint swap of a segment (the two `std::swap` calls in
`WireframeRenderer::add_line`). -/
def swapLine (l : Line2D) : Line2D :=
  ⟨l.x2, l.y2, l.x1, l.y1⟩

/-- `WireframeRenderer::add_line` in `wireframe.cpp`: skip the candidate
when it is within `eps` of a stored line, otherwise store it with the
lexicographically smaller endpoint first. -/
def add_line (out : List Line2D) (a b : Point2DInt) (eps : ℤ := 1) : List Line2D :=
  let new_line := lineOf a b
  if out.any (fun l => lines_equal l new_line (eps * eps)) then
    out
  else if a.x > b.x ∨ (a.x = b.x ∧ a.y > b.y) then
    out ++ [swapLine new_line]
  else
    out ++ [new_line]

/-- Canonical orientation of a stored segment: the endpoint with
lexicographically smaller `(x, y)` comes first. -/
def canonicalLine (l : Line2D) : Prop :=
  l.x1 < l.x2 ∨ (l.x1 = l.x2 ∧ l.y1 ≤ l.y2)

instance (l : Line2D) : Decidable (canonicalLine l) := by
  unfold canonicalLine
  infer_instance

/-- The sentinel screen point `(-1, -1)` marking an unprojectable vertex. -/
def sentinel : Point2DInt :=
  ⟨-1, -1⟩

/- Basic facts about the collector primitives. -/

theorem dist2_self (x y : ℤ) : dist2 x y x y = 0 := by
  simp [dist2]

theorem lines_equal_swap_right (l m : Line2D) (e : ℤ) :
    lines_equal l (swapLine m) e = lines_equal l m e := by
  unfold lines_equal swapLine
  apply decide_eq_decide.mpr
  constructor
  · rintro (⟨h1, h2⟩ | ⟨h1, h2⟩)
    · exact Or.inr ⟨h1, h2⟩
    · exact Or.inl ⟨h1, h2⟩
  · rintro (⟨h1, h2⟩ | ⟨h1, h2⟩)
    · exact Or.inr ⟨h1, h2⟩
    · exact Or.inl ⟨h1, h2⟩

theorem dist2_comm (x1 y1 x2 y2 : ℤ) : dist2 x1 y1 x2 y2 = dist2 x2 y2 x1 y1 := by
  unfold dist2
  ring

theorem lines_equal_comm (l m : Line2D) (e : ℤ) :
    lines_equal l m e = lines_equal m l e := by
  unfold lines_equal
  apply decide_eq_decide.mpr
  rw [dist2_comm l.x1 l.y1 m.x1, dist2_comm l.x2 l.y2 m.x2,
      dist2_comm l.x1 l.y1 m.x2, dist2_comm l.x2 l.y2 m.x1]
  constructor
  · rintro (⟨h1, h2⟩ | ⟨h1, h2⟩)
    · exact Or.inl ⟨h1, h2⟩
    · exact Or.inr ⟨h2, h1⟩
  · rintro (⟨h1, h2⟩ | ⟨h1, h2⟩)
    · exact Or.inl ⟨h1, h2⟩
    · exact Or.inr ⟨h2, h1⟩

theorem lines_equal_lineOf_self (a b : Point2DInt) (e : ℤ) (he : 0 ≤ e) :
    lines_equal (lineOf a b) (lineOf a b) e = true := by
  simp [lines_equal, lineOf, dist2_self]
  omega

theorem lines_equal_lineOf_swap (a b : Point2DInt) (e : ℤ) (he : 0 ≤ e) :
    lines_equal (lineOf a b) (lineOf b a) e = true := by
  have h : lineOf b a = swapLine (lineOf a b) := rfl
  rw [h, lines_equal_swap_right]
  exact lines_equal_lineOf_self a b e he

/-- The pushed line is always in canonical orientation. -/
theorem add_line_mem_canonical (out : List Line2D) (a b : Point2DInt)
    (hout : ∀ l ∈ out, canonicalLine l) :
    ∀ l ∈ add_line out a b, canonicalLine l := by
  intro l hl
  unfold add_line at hl
  by_cases hany : out.any (fun l => lines_equal l (lineOf a b) (1 * 1)) = true
  · rw [if_pos hany] at hl
    exact hout l hl
  · rw [if_neg hany] at hl
    by_cases hswap : a.x > b.x ∨ (a.x = b.x ∧ a.y > b.y)
    · rw [if_pos hswap] at hl
      rcases List.mem_append.mp hl with hl | hl
      · exact hout l hl
      · rw [List.mem_singleton] at hl
        subst hl
        unfold canonicalLine swapLine lineOf
        rcases hswap with h | ⟨h1, h2⟩
        · exact Or.inl h
        · exact Or.inr ⟨h1.symm, le_of_lt h2⟩
    · rw [if_neg hswap] at hl
      rcases List.mem_append.mp hl with hl | hl
      · exact hout l hl
      · rw [List.mem_singleton] at hl
        subst hl
        unfold canonicalLine lineOf
        push_neg at hswap
        obtain ⟨h1, h2⟩ := hswap
        rcases lt_or_eq_of_le h1 with h | h
        · exact Or.inl h
        · exact Or.inr ⟨h, h2 h⟩

/-- Adding `(a, b)` to an empty collector stores exactly one line. -/
theorem add_line_nil (a b : Point2DInt) :
    (add_line [] a b).length = 1 := by
  unfold add_line
  simp only [List.any_nil, if_false, Bool.false_eq_true]
  by_cases hswap : a.x > b.x ∨ (a.x = b.x ∧ a.y > b.y) <;> simp [hswap]

/-- A candidate near-equal to a stored line is dropped. -/
theorem add_line_skip (out : List Line2D) (a b : Point2DInt)
    (h : out.any (fun l => lines_equal l (lineOf a b) (1 * 1)) = true) :
    add_line out a b = out := by
  unfold add_line
  rw [if_pos h]

/-- Claim C5: adding `(a, b)` then `(b, a)` to an empty collector yields
exactly one stored line, and every line a collector built by `add_line`
stores is in canonical orientation (lexicographically smaller endpoint
first). -/
theorem add_line_dedup_undirected_and_canonical :
    (∀ a b : Point2DInt, a ≠ sentinel → b ≠ sentinel →
      (add_line (add_line [] a b) b a).length = 1) ∧
    (∀ (out : List Line2D) (a b : Point2DInt),
      (∀ l ∈ out, canonicalLine l) → ∀ l ∈ add_line out a b, canonicalLine l) := by
  constructor
  · intro a b _ _
    have hfirst : add_line [] a b = [lineOf a b] ∨ add_line [] a b = [lineOf b a] := by
      unfold add_line
      simp only [List.any_nil, if_false, Bool.false_eq_true]
      by_cases hswap : a.x > b.x ∨ (a.x = b.x ∧ a.y > b.y)
      · right
        simp [hswap, swapLine, lineOf]
      · left
        simp [hswap, lineOf]
    have hlen1 : (add_line [] a b).length = 1 := add_line_nil a b
    have hskip : add_line (add_line [] a b) b a = add_line [] a b := by
      apply add_line_skip
      rcases hfirst with h | h <;> rw [h]
      · simp only [List.any_cons, List.any_nil, Bool.or_false]
        rw [lines_equal_lineOf_swap a b (1 * 1) (by norm_num)]
      · simp only [List.any_cons, List.any_nil, Bool.or_false]
        rw [lines_equal_lineOf_self b a (1 * 1) (by norm_num)]
    rw [hskip, hlen1]
  · exact add_line_mem_canonical

/-- Claim C5 witness: the dedup and canonicity facts at the concrete
endpoints `(0, 0)` and `(1, 1)`. -/
theorem add_line_dedup_undirected_and_canonical_witness :
    ((⟨0, 0⟩ : Point2DInt) ≠ sentinel ∧ (⟨1, 1⟩ : Point2DInt) ≠ sentinel ∧
      (add_line (add_line [] ⟨0, 0⟩ ⟨1, 1⟩) ⟨1, 1⟩ ⟨0, 0⟩).length = 1) ∧
    (∀ l ∈ add_line [] ⟨0, 0⟩ ⟨1, 1⟩, canonicalLine l) :=
  ⟨⟨by decide, by decide,
      add_line_dedup_undirected_and_canonical.1 ⟨0, 0⟩ ⟨1, 1⟩ (by decide) (by decide)⟩,
    add_line_dedup_undirected_and_canonical.2 [] ⟨0, 0⟩ ⟨1, 1⟩ (by simp)⟩

/-- Claim C2: `add_line` performs no sentinel check at all — a candidate
line whose first endpoint is the invalid sentinel `(-1, -1)` is stored in
an empty collector rather than rejected. -/
theorem add_line_stores_sentinel_endpoint :
    add_line [] sentinel ⟨5, 5⟩ = [⟨-1, -1, 5, 5⟩] ∧
    (add_line [] sentinel ⟨5, 5⟩).length = 1 := by
  constructor <;> decide

noncomputable section

/-- 3D point with `float` coordinates (`Point3D` in `math.hpp`),
modelled over exact reals. -/
structure Point3D where
  x : ℝ
  y : ℝ
  z : ℝ

/-- `deg_to_rad` in `math.cpp`: degrees times `π / 180`. -/
def deg_to_rad (deg : ℝ) : ℝ :=
  deg * (Real.pi / 180)

/-- `sub_v` in `math.cpp`: componentwise difference `v1 - v2`. -/
def sub_v (v1 v2 : Point3D) : Point3D :=
  ⟨v1.x - v2.x, v1.y - v2.y, v1.z - v2.z⟩

/-- `cross_v` in `math.cpp`, transcribed term for term — note the first
component reads `v1.y * v2.z - v2.z * v1.y`. -/
def cross_v (v1 v2 : Point3D) : Point3D :=
  ⟨v1.y * v2.z - v2.z * v1.y,
   v1.z * v2.x - v1.x * v2.z,
   v1.x * v2.y - v1.y * v2.x⟩

/-- Modelled from the spec: the standard right-hand-rule cross product
`(a.y*b.z - a.z*b.y, a.z*b.x - a.x*b.z, a.x*b.y - a.y*b.x)` that claim C1
says `cross` computes. -/
def crossSpec (a b : Point3D) : Point3D :=
  ⟨a.y * b.z - a.z * b.y,
   a.z * b.x - a.x * b.z,
   a.x * b.y - a.y * b.x⟩

/-- `rot_v` in `math.cpp`: intrinsic Euler rotation of one vector, in the
source's exact sequence of intermediates (`x1`, `z1` from the Y step,
`y2`, `z2` from the X step on `z1`, `x3`, `y3` from the Z step on `x1`
and `y2`). -/
def rot_v (rot v : Point3D) : Point3D :=
  let cx := Real.cos rot.x
  let sx := Real.sin rot.x
  let cy := Real.cos rot.y
  let sy := Real.sin rot.y
  let cz := Real.cos rot.z
  let sz := Real.sin rot.z
  let x1 := v.x * cy + v.z * sy
  let z1 := -v.x * sy + v.z * cy
  let y2 := v.y * cx - z1 * sx
  let z2 := v.y * sx + z1 * cx
  let x3 := x1 * cz - y2 * sz
  let y3 := x1 * sz + y2 * cz
  ⟨x3, y3, z2⟩

/-- Modelled from the spec: the single-axis rotation about Y used in its
description of the rotation order (new x and z from the original x and z,
y unchanged). -/
def rotYSpec (θ : ℝ) (v : Point3D) : Point3D :=
  ⟨v.x * Real.cos θ + v.z * Real.sin θ, v.y, -v.x * Real.sin θ + v.z * Real.cos θ⟩

/-- Modelled from the spec: the single-axis rotation about X (new y and z
from the incoming y and z, x unchanged). -/
def rotXSpec (θ : ℝ) (v : Point3D) : Point3D :=
  ⟨v.x, v.y * Real.cos θ - v.z * Real.sin θ, v.y * Real.sin θ + v.z * Real.cos θ⟩

/-- Modelled from the spec: the single-axis rotation about Z (new x and y
from the incoming x and y, z unchanged). -/
def rotZSpec (θ : ℝ) (v : Point3D) : Point3D :=
  ⟨v.x * Real.cos θ - v.y * Real.sin θ, v.x * Real.sin θ + v.y * Real.cos θ, v.z⟩

/-- The near-plane epsilon `EPS_Z = 1e-4f` of
`WireframeRenderer::conv_screen_space`. -/
def EPS_Z : ℝ :=
  1 / 10000

/-- C++ `round` (half away from zero) followed by `static_cast<int>` of an
integral value: the rounding used in `conv_screen_space`. -/
def cround (r : ℝ) : ℤ :=
  if 0 ≤ r then ⌊r + 1 / 2⌋ else ⌈r - 1 / 2⌉

/-- `WireframeRenderer::conv_screen_space` in `wireframe.cpp`: pinhole
projection of one camera-space vertex to integer screen coordinates, with
the sentinel for `z ≤ EPS_Z`. -/
def conv_screen_space (vertex : Point3D) (heights widths : ℤ) (factor focal_l : ℝ) :
    Point2DInt :=
  if vertex.z ≤ EPS_Z then
    sentinel
  else
    ⟨cround ((vertex.x * focal_l / vertex.z) * factor + (widths : ℝ) * (1 / 2)),
     cround ((vertex.y * focal_l / vertex.z) * factor + (heights : ℝ) * (1 / 2))⟩

/-- Modelled from the spec: the projection formula claim C4 states for
`z > EPS_Z`, `(round((x*focal/z)*scale + width/2), round((y*focal/z)*scale + height/2))`. -/
def projectSpec (vertex : Point3D) (heights widths : ℤ) (factor focal_l : ℝ) :
    Point2DInt :=
  ⟨cround (vertex.x * focal_l / vertex.z * factor + (widths : ℝ) / 2),
   cround (vertex.y * focal_l / vertex.z * factor + (heights : ℝ) / 2)⟩

/-- One parsed text line of a mesh file, abstracting `Obj::parse_file`'s
line classification: a `v ` record carries its three numeric fields in
file order, an `f ` record the three leading indices of its tokens, an
`o ` record the name, and `skipLine` stands for `vn `/`vt `/blank/other
lines. -/
inductive ObjLine where
  | vLine (a b c : ℝ)
  | fLine (i j k : ℕ)
  | oLine (n : String)
  | skipLine

/-- In-memory mesh (`class Obj` in `obj_loader.hpp`). -/
structure Obj where
  name : String
  v : List Point3D
  f : List Face

/-- One step of `Obj::parse_file`'s line loop.  For a `v ` record the
stream reads `x`, then `z`, then `y` and pushes `{x, -y, z}`; for an
`f ` record the three 1-based indices are decremented as C++
`unsigned int`s (wrapping modulo `2^32`). -/
def parseLine (o : Obj) (line : ObjLine) : Obj :=
  match line with
  | .vLine a b c =>
      let x := a
      let z := b
      let y := c
      { o with v := o.v ++ [⟨x, -y, z⟩] }
  | .fLine i j k =>
      { o with f := o.f ++ [⟨(i + (2 ^ 32 - 1)) % 2 ^ 32,
                             (j + (2 ^ 32 - 1)) % 2 ^ 32,
                             (k + (2 ^ 32 - 1)) % 2 ^ 32⟩] }
  | .oLine n => { o with name := n }
  | .skipLine => o

/-- `Obj::parse_file` over an already line-split and tokenised file. -/
def parse_file (lines : List ObjLine) : Obj :=
  lines.foldl parseLine ⟨"", [], []⟩

/-- The per-tick animation-angle update inlined in
`WireframeRenderer::render`: `rot_z += deg_to_rad(5.0f); if (rot_z >
M_PI * 2.0f) rot_z = 0.0f;`. -/
def tick (a : ℝ) : ℝ :=
  if a + deg_to_rad 5 > 2 * Real.pi then 0 else a + deg_to_rad 5

/-- The mutable fields of `class WireframeRenderer`. -/
structure WireframeState where
  width : ℤ
  height : ℤ
  focal_l : ℝ
  camera : Point3D
  rot : Point3D
  rot_z : ℝ
  running : Bool
  obj : Obj
  original_v : List Point3D

/-- The renderer's `size_factor` member:
`(width <= height) ? width / 100 : height / 100`. -/
def size_factor (s : WireframeState) : ℝ :=
  if s.width ≤ s.height then (s.width : ℝ) / 100 else (s.height : ℝ) / 100

/-- The `convert_idx` lambda in `WireframeRenderer::render`, reconciling
0- and 1-based face indices.  The `unsigned int` index is converted to a
C++ `int` first, so values of `2^31` and above arrive negative and fail
the `idx < 0` guard; `idx - 1` underflows for `idx = 0`, so the 1-based
retry requires `1 ≤ idx`. -/
def convert_idx (n : ℕ) (idx : ℕ) : Option ℕ :=
  if 2 ^ 31 ≤ idx then none
  else if idx < n then some idx
  else if 1 ≤ idx ∧ idx - 1 < n then some (idx - 1)
  else none

/-- The face loop body of `WireframeRenderer::render`: resolve the three
indices, skip the face if any fails, otherwise pass the three edges
through `add_line`. -/
def faceStep (new_v : List Point2DInt) (acc : List Line2D) (f : Face) : List Line2D :=
  match convert_idx new_v.length f.v1, convert_idx new_v.length f.v2,
        convert_idx new_v.length f.v3 with
  | some a, some b, some c =>
      let pa := new_v.getD a sentinel
      let pb := new_v.getD b sentinel
      let pc := new_v.getD c sentinel
      add_line (add_line (add_line acc pa pb) pb pc) pc pa
  | _, _, _ => acc

/-- The line list accumulated by `WireframeRenderer::render`'s face loop. -/
def renderLines (new_v : List Point2DInt) (faces : List Face) : List Line2D :=
  faces.foldl (faceStep new_v) []

/-- `WireframeRenderer::render`: returns the successor state and the
frame's line list.  A stopped renderer returns an empty list at once;
otherwise the animation angle ticks, the baseline vertices
(`original_v`) are rotated by the static offset with the animation angle
added on Y, translated by `-camera`, projected, and the face edges are
collected through `add_line`. -/
def render (s : WireframeState) : WireframeState × List Line2D :=
  if s.running then
    let rot_z' := tick s.rot_z
    let rot_rad : Point3D := ⟨s.rot.x, s.rot.y + rot_z', s.rot.z⟩
    let rotated := s.original_v.map (rot_v rot_rad)
    let camera_space_v := rotated.map (fun v => sub_v v s.camera)
    let new_v := camera_space_v.map
      (fun v => conv_screen_space v s.height s.width (size_factor s) s.focal_l)
    ({ s with rot_z := rot_z' }, renderLines new_v s.obj.f)
  else
    (s, [])

/-- `WireframeRenderer::start`. -/
def start (s : WireframeState) : WireframeState :=
  { s with running := true }

/-- `WireframeRenderer::stop`. -/
def stop (s : WireframeState) : WireframeState :=
  { s with running := false }

/-- The state-update half of `render`, used to iterate frames. -/
def rstep (s : WireframeState) : WireframeState :=
  (render s).1

/-- The first component of `cross_v` is identically zero: the source
subtracts `v2.z * v1.y` from `v1.y * v2.z`. -/
theorem cross_v_fst_zero (a b : Point3D) : (cross_v a b).x = 0 := by
  unfold cross_v
  ring

/-- Claim C1: at `a = (0,1,0)`, `b = (0,0,1)` the code's `cross_v`
returns `(0,0,0)` while the standard right-hand-rule cross product the
spec states is `(1,0,0)` — the x component formula is a transcription
slip. -/
theorem cross_v_deviates_from_spec :
    cross_v ⟨0, 1, 0⟩ ⟨0, 0, 1⟩ = ⟨0, 0, 0⟩ ∧
    crossSpec ⟨0, 1, 0⟩ ⟨0, 0, 1⟩ = ⟨1, 0, 0⟩ ∧
    cross_v ⟨0, 1, 0⟩ ⟨0, 0, 1⟩ ≠ crossSpec ⟨0, 1, 0⟩ ⟨0, 0, 1⟩ := by
  refine ⟨?_, ?_, ?_⟩
  · unfold cross_v
    simp only [Point3D.mk.injEq]
    norm_num
  · unfold crossSpec
    simp only [Point3D.mk.injEq]
    norm_num
  · unfold cross_v crossSpec
    simp only [ne_eq, Point3D.mk.injEq]
    norm_num

/-- Claim C6: `rot_v` is exactly the composition of the three
single-axis rotations in the order Y, then X, then Z — the Y step uses
the original x and z, the X step the Y-rotated z, and the Z step the
Y-rotated x and the X-rotated y. -/
theorem rot_v_eq_YXZ_composition (rot v : Point3D) :
    rot_v rot v = rotZSpec rot.z (rotXSpec rot.x (rotYSpec rot.y v)) := by
  unfold rot_v rotZSpec rotXSpec rotYSpec
  simp only [Point3D.mk.injEq]

/-- `cround` agrees with the exact value on integers. -/
theorem cround_intCast (n : ℤ) : cround (n : ℝ) = n := by
  unfold cround
  by_cases h : (0 : ℝ) ≤ (n : ℝ)
  · rw [if_pos h]
    apply Int.floor_eq_iff.mpr
    constructor
    · linarith
    · linarith
  · rw [if_neg h]
    apply Int.ceil_eq_iff.mpr
    constructor
    · linarith
    · linarith

/-- Claim C4: a vertex with `z ≤ EPS_Z` projects to the sentinel
`(-1, -1)`; a vertex with `z > EPS_Z` projects to the spec's pinhole
formula; and the vertex `(0, 0, 10)` with focal 50, scale 1 and a
100×100 viewport lands on the viewport center `(50, 50)`. -/
theorem conv_screen_space_matches_spec :
    (∀ (v : Point3D) (h w : ℤ) (factor focal : ℝ), v.z ≤ EPS_Z →
      conv_screen_space v h w factor focal = sentinel) ∧
    (∀ (v : Point3D) (h w : ℤ) (factor focal : ℝ), EPS_Z < v.z →
      conv_screen_space v h w factor focal = projectSpec v h w factor focal) ∧
    conv_screen_space ⟨0, 0, 10⟩ 100 100 1 50 = ⟨50, 50⟩ := by
  refine ⟨?_, ?_, ?_⟩
  · intro v h w factor focal hv
    unfold conv_screen_space
    rw [if_pos hv]
  · intro v h w factor focal hv
    unfold conv_screen_space projectSpec
    rw [if_neg (not_le.mpr hv)]
    simp only [Point2DInt.mk.injEq]
    constructor <;> · congr 1; ring
  · have hz : ¬ ((⟨0, 0, 10⟩ : Point3D).z ≤ EPS_Z) := by
      norm_num [EPS_Z]
    unfold conv_screen_space
    rw [if_neg hz]
    have harg : ((⟨0, 0, 10⟩ : Point3D).x * 50 / (⟨0, 0, 10⟩ : Point3D).z) * 1 +
        ((100 : ℤ) : ℝ) * (1 / 2) = ((50 : ℤ) : ℝ) := by
      norm_num
    rw [harg, cround_intCast]

/-- Claim C4 witness: the sentinel branch at the concrete vertex
`(3, 4, 0)` and the pinhole branch at `(0, 0, 10)`, both on a 100×100
viewport with focal 50 and scale 1. -/
theorem conv_screen_space_matches_spec_witness :
    ((⟨3, 4, 0⟩ : Point3D).z ≤ EPS_Z ∧
      conv_screen_space ⟨3, 4, 0⟩ 100 100 1 50 = sentinel) ∧
    (EPS_Z < (⟨0, 0, 10⟩ : Point3D).z ∧
      conv_screen_space ⟨0, 0, 10⟩ 100 100 1 50 = projectSpec ⟨0, 0, 10⟩ 100 100 1 50) :=
  ⟨⟨by norm_num [EPS_Z], conv_screen_space_matches_spec.1 ⟨3, 4, 0⟩ 100 100 1 50 (by norm_num [EPS_Z])⟩,
   ⟨by norm_num [EPS_Z], conv_screen_space_matches_spec.2.1 ⟨0, 0, 10⟩ 100 100 1 50 (by norm_num [EPS_Z])⟩⟩

/-- Claim C9: appending a `v a b c` record to any parse state appends the
vertex `(a, -c, b)` — the file's second component is stored as z and its
third component as the negated y. -/
theorem parse_file_vertex_axis_swap (lines : List ObjLine) (a b c : ℝ) :
    (parse_file (lines ++ [ObjLine.vLine a b c])).v =
      (parse_file lines).v ++ [⟨a, -c, b⟩] := by
  unfold parse_file
  rw [List.foldl_append]
  rfl

/-- Claim C7: `render` on a stopped renderer returns the empty line
list and leaves the state untouched, whatever the rest of the state is. -/
theorem render_stopped_empty (s : WireframeState) (h : s.running = false) :
    render s = (s, []) := by
  unfold render
  rw [h]
  simp only [Bool.false_eq_true, if_false]

/-- A concrete stopped renderer state. -/
def stoppedState : WireframeState :=
  ⟨100, 100, 50, ⟨0, 0, -10⟩, ⟨0, 0, 0⟩, 0, false, ⟨"cube", [⟨1, 2, 3⟩], [⟨0, 1, 2⟩]⟩,
    [⟨1, 2, 3⟩]⟩

/-- Claim C7 witness: the stopped-renderer fact at a concrete state with
a loaded mesh. -/
theorem render_stopped_empty_witness :
    stoppedState.running = false ∧ render stoppedState = (stoppedState, []) :=
  ⟨rfl, render_stopped_empty stoppedState rfl⟩

/-- Claim C8: `render` changes no renderer field but the animation angle
(`rot_z`); `start` and `stop` change only the running flag, so camera,
static rotation, and animation angle survive a stop/start cycle. -/
theorem render_frame_only_rot_z (s : WireframeState) :
    ((render s).1.width = s.width ∧ (render s).1.height = s.height ∧
     (render s).1.focal_l = s.focal_l ∧ (render s).1.camera = s.camera ∧
     (render s).1.rot = s.rot ∧ (render s).1.running = s.running ∧
     (render s).1.obj = s.obj ∧ (render s).1.original_v = s.original_v) ∧
    ((start s).width = s.width ∧ (start s).height = s.height ∧
     (start s).focal_l = s.focal_l ∧ (start s).camera = s.camera ∧
     (start s).rot = s.rot ∧ (start s).rot_z = s.rot_z ∧
     (start s).obj = s.obj ∧ (start s).original_v = s.original_v ∧
     (start s).running = true) ∧
    ((stop s).width = s.width ∧ (stop s).height = s.height ∧
     (stop s).focal_l = s.focal_l ∧ (stop s).camera = s.camera ∧
     (stop s).rot = s.rot ∧ (stop s).rot_z = s.rot_z ∧
     (stop s).obj = s.obj ∧ (stop s).original_v = s.original_v ∧
     (stop s).running = false) ∧
    ((start (stop s)).camera = s.camera ∧ (start (stop s)).rot = s.rot ∧
     (start (stop s)).rot_z = s.rot_z) := by
  rcases s with ⟨w, ht, fl, cam, rot, rz, run, obj, ov⟩
  cases run <;> simp [render, start, stop]

/- The animation angle: `deg_to_rad 5` is `π / 36`, and `tick` either
advances by it or resets to `0`. -/

theorem deg_to_rad_five : deg_to_rad 5 = Real.pi / 36 := by
  unfold deg_to_rad
  ring

theorem tick_of_le (a : ℝ) (h : a + Real.pi / 36 ≤ 2 * Real.pi) :
    tick a = a + Real.pi / 36 := by
  unfold tick
  rw [deg_to_rad_five, if_neg (not_lt.mpr h)]

theorem tick_of_gt (a : ℝ) (h : 2 * Real.pi < a + Real.pi / 36) :
    tick a = 0 := by
  unfold tick
  rw [deg_to_rad_five, if_pos h]

/-- As long as the accumulated angle stays at or below `2π`, iterating
`tick` adds `k · π/36`. -/
theorem tick_iter_no_reset (a : ℝ) :
    ∀ k : ℕ, a + (k : ℝ) * (Real.pi / 36) ≤ 2 * Real.pi →
      tick^[k] a = a + (k : ℝ) * (Real.pi / 36) := by
  intro k
  induction k with
  | zero => intro _; simp
  | succ k ih =>
    intro hk
    have hpi : (0 : ℝ) < Real.pi := Real.pi_pos
    have hk' : a + (k : ℝ) * (Real.pi / 36) ≤ 2 * Real.pi := by
      have : (k : ℝ) ≤ (k : ℝ) + 1 := by linarith
      push_cast at hk
      nlinarith
    rw [Function.iterate_succ_apply', ih hk', tick_of_le]
    · push_cast
      ring
    · push_cast at hk
      linarith [hk]

/-- A renderer that is running keeps running and only its angle moves. -/
theorem rstep_running (s : WireframeState) (h : s.running = true) :
    rstep s = { s with rot_z := tick s.rot_z } := by
  unfold rstep render
  rw [h]
  rfl

theorem rstep_iter_running (s : WireframeState) (h : s.running = true) :
    ∀ k : ℕ, rstep^[k] s = { s with rot_z := tick^[k] s.rot_z } := by
  intro k
  induction k with
  | zero => simp
  | succ k ih =>
    rw [Function.iterate_succ_apply', ih, Function.iterate_succ_apply',
        rstep_running _ (by exact h)]

/-- A running renderer with empty mesh and animation angle `a`. -/
def spinState (a : ℝ) : WireframeState :=
  ⟨100, 100, 50, ⟨0, 0, -10⟩, ⟨0, 0, 0⟩, a, true, ⟨"", [], []⟩, []⟩

/-- Claim C3 counterexample: starting the running renderer at animation
angle `1` radian, 72 `render` calls do not return the angle to `1` — the
reset to `0` at the 61st call discards the overshoot, and the angle ends
at `11π/36 ≈ 0.96`. -/
theorem render_angle_not_72_periodic :
    (rstep^[72] (spinState 1)).rot_z ≠ (spinState 1).rot_z := by
  have hrun : (spinState 1).running = true := rfl
  rw [rstep_iter_running (spinState 1) hrun 72]
  have hrz : (spinState 1).rot_z = 1 := rfl
  simp only [hrz]
  have hgt : 3.141592 < Real.pi := Real.pi_gt_d6
  have hlt : Real.pi < 3.15 := Real.pi_lt_d2
  have h60 : tick^[60] (1 : ℝ) = 1 + (60 : ℝ) * (Real.pi / 36) := by
    apply tick_iter_no_reset
    push_cast
    nlinarith
  have h61 : tick^[61] (1 : ℝ) = 0 := by
    rw [show (61 : ℕ) = 60 + 1 from rfl, Function.iterate_succ_apply', h60, tick_of_gt]
    nlinarith
  have h72 : tick^[72] (1 : ℝ) = (11 : ℝ) * (Real.pi / 36) := by
    have hsplit : (72 : ℕ) = 11 + 61 := rfl
    rw [hsplit, Function.iterate_add_apply, h61]
    have := tick_iter_no_reset 0 11 (by push_cast; nlinarith)
    rw [this]
    ring
  rw [h72]
  intro hcontra
  nlinarith

/-- Claim C3 amended: while running, each `render` call either advances
the animation angle by exactly `π/36` (5° in radians) when the result
stays at or below `2π`, or resets it to `0` when the result would exceed
`2π`; starting from angle `0`, 72 calls land exactly on `2π` (not back
on `0`), and the angle first returns to `0` after 73 calls. -/
theorem render_angle_amended (s : WireframeState) (h : s.running = true) :
    (((render s).1.rot_z = s.rot_z + Real.pi / 36 ∧
        s.rot_z + Real.pi / 36 ≤ 2 * Real.pi) ∨
      ((render s).1.rot_z = 0 ∧ 2 * Real.pi < s.rot_z + Real.pi / 36)) ∧
    (rstep^[72] (spinState 0)).rot_z = 2 * Real.pi ∧
    (rstep^[73] (spinState 0)).rot_z = 0 := by
  have hpi : (0 : ℝ) < Real.pi := Real.pi_pos
  have hrun0 : (spinState 0).running = true := rfl
  have hrz0 : (spinState 0).rot_z = 0 := rfl
  have h72 : tick^[72] (0 : ℝ) = 2 * Real.pi := by
    have := tick_iter_no_reset 0 72 (by push_cast; nlinarith)
    rw [this]
    push_cast
    ring
  refine ⟨?_, ?_, ?_⟩
  · have hfst : (render s).1 = { s with rot_z := tick s.rot_z } := rstep_running s h
    rw [hfst]
    by_cases hc : s.rot_z + Real.pi / 36 ≤ 2 * Real.pi
    · exact Or.inl ⟨tick_of_le s.rot_z hc, hc⟩
    · push_neg at hc
      exact Or.inr ⟨tick_of_gt s.rot_z hc, hc⟩
  · rw [rstep_iter_running (spinState 0) hrun0 72]
    simp only [hrz0]
    exact h72
  · rw [rstep_iter_running (spinState 0) hrun0 73]
    simp only [hrz0]
    have hsplit : (73 : ℕ) = 72 + 1 := rfl
    rw [hsplit, Function.iterate_succ_apply', h72, tick_of_gt]
    nlinarith

/-- Claim C3 amended witness: the per-call dichotomy applied to the
concrete running state at angle `0`, together with the closed period
facts. -/
theorem render_angle_amended_witness :
    (spinState 0).running = true ∧
    ((((render (spinState 0)).1.rot_z = (spinState 0).rot_z + Real.pi / 36 ∧
          (spinState 0).rot_z + Real.pi / 36 ≤ 2 * Real.pi) ∨
        ((render (spinState 0)).1.rot_z = 0 ∧
          2 * Real.pi < (spinState 0).rot_z + Real.pi / 36)) ∧
      (rstep^[72] (spinState 0)).rot_z = 2 * Real.pi ∧
      (rstep^[73] (spinState 0)).rot_z = 0) :=
  ⟨rfl, render_angle_amended (spinState 0) rfl⟩

/- The dedup invariant: no stored line is a near-duplicate of another. -/

theorem pairwise_add_line (out : List Line2D) (a b : Point2DInt)
    (h : List.Pairwise (fun l m => lines_equal l m 1 = false) out) :
    List.Pairwise (fun l m => lines_equal l m 1 = false) (add_line out a b) := by
  unfold add_line
  by_cases hany : out.any (fun l => lines_equal l (lineOf a b) (1 * 1)) = true
  · rw [if_pos hany]
    exact h
  · rw [if_neg hany]
    have hfalse : ∀ l ∈ out, lines_equal l (lineOf a b) 1 = false := by
      intro l hl
      have := List.any_eq_false.mp (Bool.not_eq_true _ ▸ hany) l hl
      simpa [one_mul] using this
    by_cases hswap : a.x > b.x ∨ (a.x = b.x ∧ a.y > b.y)
    · rw [if_pos hswap]
      rw [List.pairwise_append]
      refine ⟨h, List.pairwise_singleton _ _, ?_⟩
      intro l hl m hm
      rw [List.mem_singleton] at hm
      subst hm
      rw [lines_equal_swap_right]
      exact hfalse l hl
    · rw [if_neg hswap]
      rw [List.pairwise_append]
      refine ⟨h, List.pairwise_singleton _ _, ?_⟩
      intro l hl m hm
      rw [List.mem_singleton] at hm
      subst hm
      exact hfalse l hl

theorem pairwise_faceStep (new_v : List Point2DInt) (acc : List Line2D) (f : Face)
    (h : List.Pairwise (fun l m => lines_equal l m 1 = false) acc) :
    List.Pairwise (fun l m => lines_equal l m 1 = false) (faceStep new_v acc f) := by
  unfold faceStep
  cases h1 : convert_idx new_v.length f.v1 <;>
    cases h2 : convert_idx new_v.length f.v2 <;>
      cases h3 : convert_idx new_v.length f.v3 <;>
        simp only []
  all_goals first
    | exact h
    | exact pairwise_add_line _ _ _ (pairwise_add_line _ _ _ (pairwise_add_line _ _ _ h))

theorem pairwise_renderLines_aux (new_v : List Point2DInt) :
    ∀ (faces : List Face) (acc : List Line2D),
      List.Pairwise (fun l m => lines_equal l m 1 = false) acc →
      List.Pairwise (fun l m => lines_equal l m 1 = false)
        (faces.foldl (faceStep new_v) acc) := by
  intro faces
  induction faces with
  | nil => intro acc h; exact h
  | cons f fs ih =>
    intro acc h
    rw [List.foldl_cons]
    exact ih _ (pairwise_faceStep new_v acc f h)

/-- Claim C10: in every line list `render` returns, no two stored lines
are within the 1-pixel squared-distance tolerance of each other in
either endpoint orientation, and the near-duplicate test is symmetric,
so the guarantee reads the same in both orders. -/
theorem render_lines_pairwise_distinct (s : WireframeState) :
    List.Pairwise (fun l m => lines_equal l m 1 = false) (render s).2 ∧
    (∀ (l m : Line2D) (e : ℤ), lines_equal l m e = lines_equal m l e) := by
  constructor
  · unfold render
    by_cases h : s.running = true
    · rw [h]
      simp only [if_true]
      exact pairwise_renderLines_aux _ _ _ List.Pairwise.nil
    · rw [Bool.not_eq_true] at h
      rw [h]
      simp only [Bool.false_eq_true, if_false]
      exact List.Pairwise.nil
  · exact lines_equal_comm

end

end Pipboy
